import Mathlib

/-!
Verification development for the voice-agent conversation core
(`src/lambda/orchestrator` and `src/lambda/utils`).

The Python source is embedded shallowly:

* Python dicts holding JSON-like payloads become the `JVal` inductive.
* The session record (`session_manager.py`, `create_session`) becomes the
  `Session` structure; fields no claim touches (`metadata`,
  `caller_history`) are elided.
* The two storage backings (in-memory dict vs DynamoDB table, selected by
  `USE_DYNAMODB_SESSIONS`) become two families of functions, suffixed
  `Mem` and `Dyn`, over an association-list store.
* `time.time()` becomes an explicit `now : Nat` argument; a single turn
  uses one `now`, matching the second-granularity timestamps of the source.
* External collaborators (the Bedrock runtime, Neptune, CloudWatch
  metrics, the logger) are oracles or are elided where they cannot affect
  the embedded state; `NEPTUNE_ENABLED` defaults to false in the source,
  so the Neptune best-effort branches are dead in the default
  configuration that is embedded here.
-/

/-- A JSON-like value, standing for the Python dict/list/str payloads that
flow through tool inputs and tool results. -/
inductive JVal where
  | str (s : String)
  | nat (n : Nat)
  | bool (b : Bool)
  | obj (fields : List (String × JVal))
  | arr (xs : List JVal)

/-- Lookup of a key in a JSON object, mirroring Python `dict.get(k)`. -/
def jget (j : JVal) (k : String) : Option JVal :=
  match j with
  | JVal.obj fields => (fields.find? (fun p => p.1 = k)).map (fun p => p.2)
  | _ => none

/-- Mirrors Python `d.get(k, default)` for string-valued fields. -/
def jgetStr (j : JVal) (k : String) (dflt : String) : String :=
  match jget j k with
  | some (JVal.str s) => s
  | _ => dflt

/-- One entry of a session's conversation history
(`session_manager.add_message` builds `{"role", "content", "timestamp"}`). -/
structure Message where
  role : String
  content : String
  timestamp : Nat
deriving DecidableEq

/-- The session record built by `session_manager.create_session`.
The `metadata` map and the optional `caller_history` list are elided:
no claim mentions them and they never influence the embedded control flow.
`ended_at` is absent until `end_session` sets it, hence `Option`. -/
structure Session where
  session_id : String
  contact_id : String
  phone_number : String
  created_at : Nat
  updated_at : Nat
  ttl : Nat
  conversation_history : List Message
  turn_count : Nat
  status : String
  ended_at : Option Nat
deriving DecidableEq

/-- The keyed session store: the in-memory `self._sessions` dict, or the
DynamoDB table keyed by `contact_id`, as an association list. -/
abbrev Store := List (String × Session)

/-- The environment-derived configuration knobs the embedded code reads:
`MAX_HISTORY_LENGTH` (default 20), `SESSION_TTL_SECONDS` (default 3600),
`MAX_CONVERSATION_TURNS` (default 50), `GREETING_MESSAGE` and
`GOODBYE_MESSAGE`. -/
structure Config where
  maxHistoryLength : Nat
  sessionTtlSeconds : Nat
  maxTurns : Nat
  greeting : String
  goodbye : String
deriving DecidableEq

/-- Keyed lookup in the store (Python `self._sessions.get(contact_id)` /
`table.get_item`). -/
def storeGet : Store → String → Option Session
  | [], _ => none
  | (k, v) :: rest, c => if k = c then some v else storeGet rest c

/-- Keyed removal (Python `del self._sessions[contact_id]`). -/
def storeErase : Store → String → Store
  | [], _ => []
  | (k, v) :: rest, c =>
    if k = c then storeErase rest c else (k, v) :: storeErase rest c

/-- Keyed write (Python `self._sessions[contact_id] = session` /
`table.put_item(Item=session)`). -/
def storeSet (st : Store) (c : String) (s : Session) : Store :=
  (c, s) :: storeErase st c

theorem storeGet_set_self (st : Store) (c : String) (s : Session) :
    storeGet (storeSet st c s) c = some s := by
  simp [storeSet, storeGet]

theorem storeGet_erase_self (st : Store) (c : String) :
    storeGet (storeErase st c) c = none := by
  induction st with
  | nil => simp [storeErase, storeGet]
  | cons p rest ih =>
    by_cases h : p.1 = c
    · simpa [storeErase, h] using ih
    · simp [storeErase, storeGet, h, ih]

theorem storeGet_erase_ne (st : Store) (c c' : String) (h : c' ≠ c) :
    storeGet (storeErase st c) c' = storeGet st c' := by
  induction st with
  | nil => simp [storeErase]
  | cons p rest ih =>
    by_cases hp : p.1 = c
    · have hne : ¬ p.1 = c' := fun hc => h (hc ▸ hp)
      have hcc : ¬ c = c' := fun hx => h hx.symm
      simp [storeErase, storeGet, hp, hne, hcc, ih]
    · simp only [storeErase, storeGet, if_neg hp]
      by_cases hq : p.1 = c'
      · simp [storeGet, hq]
      · simp [storeGet, hq, ih]

theorem storeGet_set_ne (st : Store) (c c' : String) (s : Session)
    (h : c' ≠ c) :
    storeGet (storeSet st c s) c' = storeGet st c' := by
  simp only [storeSet, storeGet]
  rw [if_neg (fun hx => h hx.symm), storeGet_erase_ne st c c' h]

/-- SessionManager.create_session: builds a fresh active session and
stores it under the contact id. The session id is a UUID in the source;
it is passed in as `sid`. -/
def createSessionMem (cfg : Config) (sid : String) (now : Nat)
    (store : Store) (cid phone : String) : Store × Session :=
  let s : Session :=
    { session_id := sid
      contact_id := cid
      phone_number := phone
      created_at := now
      updated_at := now
      ttl := now + cfg.sessionTtlSeconds
      conversation_history := []
      turn_count := 0
      status := "active"
      ended_at := none }
  (storeSet store cid s, s)

/-- SessionManager.get_session, in-memory backing: returns the stored
session unless its ttl is strictly in the past, in which case the entry
is deleted and `none` is returned.  The possibly-mutated store is
returned alongside the result. -/
def getSessionMem (store : Store) (cid : String) (now : Nat) :
    Store × Option Session :=
  match storeGet store cid with
  | none => (store, none)
  | some s =>
    if s.ttl < now then (storeErase store cid, none) else (store, some s)

/-- SessionManager.get_session, DynamoDB backing: returns the item unless
its ttl is strictly in the past.  No deletion and, notably, no check of
the `status` field. -/
def getSessionDyn (table : Store) (cid : String) (now : Nat) :
    Option Session :=
  match storeGet table cid with
  | none => none
  | some s => if s.ttl < now then none else some s

/-- SessionManager.update_session: refreshes `updated_at` and `ttl`, then
writes the session back (in-memory backing). -/
def updateSessionMem (cfg : Config) (now : Nat) (store : Store)
    (cid : String) (s : Session) : Store :=
  storeSet store cid { s with updated_at := now, ttl := now + cfg.sessionTtlSeconds }

/-- DynamoDB `put_item(Item=session)`: the write is keyed by the item's
own `contact_id` attribute. -/
def putItemDyn (table : Store) (s : Session) : Store :=
  storeSet table s.contact_id s

/-- SessionManager.update_session, DynamoDB backing. -/
def updateSessionDyn (cfg : Config) (now : Nat) (table : Store)
    (s : Session) : Store :=
  putItemDyn table { s with updated_at := now, ttl := now + cfg.sessionTtlSeconds }

/-- The append-then-trim step of SessionManager.add_message: append the
new message, then, if the history now exceeds `max_history_length * 2`
entries, apply Python `history[-self._max_history_length * 2:]`.  The
slice `l[-k:]` is the last `k` elements when `k > 0`, but for `k = 0` it
is `l[0:]`, the whole list — so with a zero cap the source never
truncates. -/
def addTrim (m : Nat) (hist : List Message) (msg : Message) : List Message :=
  let h := hist ++ [msg]
  if h.length > m * 2 then
    (if m * 2 = 0 then h else h.drop (h.length - m * 2))
  else h

/-- SessionManager.add_message, in-memory backing: look the session up
(which can evict an expired entry), append-and-trim, then write back via
`update_session`.  A missing session is a logged no-op. -/
def addMessageMem (cfg : Config) (now : Nat) (store : Store)
    (cid role content : String) : Store :=
  let p := getSessionMem store cid now
  match p.2 with
  | none => p.1
  | some s =>
    updateSessionMem cfg now p.1 cid
      { s with conversation_history :=
          (addTrim cfg.maxHistoryLength s.conversation_history ⟨role, content, now⟩) }

/-- SessionManager.add_message, DynamoDB backing. -/
def addMessageDyn (cfg : Config) (now : Nat) (table : Store)
    (cid role content : String) : Store :=
  match getSessionDyn table cid now with
  | none => table
  | some s =>
    updateSessionDyn cfg now table
      { s with conversation_history :=
          (addTrim cfg.maxHistoryLength s.conversation_history ⟨role, content, now⟩) }

/-- SessionManager.end_session, in-memory backing: the source mutates the
stored dict's `status`/`ended_at` and then deletes the entry, so the net
store effect is eviction (the mutation happens on the object being
deleted).  A missing or expired session is a no-op beyond the eviction
`get_session` itself performs. -/
def endSessionMem (now : Nat) (store : Store) (cid : String) : Store :=
  let p := getSessionMem store cid now
  match p.2 with
  | none => p.1
  | some _ => storeErase p.1 cid

/-- SessionManager.end_session, DynamoDB backing: marks the record
completed with `ended_at = now` and writes it back, keeping it in the
table for audit.  `update_session` is not called, so `ttl` and
`updated_at` are unchanged. -/
def endSessionDyn (now : Nat) (table : Store) (cid : String) : Store :=
  match getSessionDyn table cid now with
  | none => table
  | some s => putItemDyn table { s with status := "completed", ended_at := some now }

/-- One history entry in the shape `get_conversation_history` hands to
Bedrock: `{"role": role, "content": [{"type": "text", "text": content}]}`.
The single-text-part wrapper is represented by keeping the text. -/
structure BMsg where
  role : String
  text : String
deriving DecidableEq

/-- SessionManager.get_conversation_history: read the session (the
embedded `get_session` may evict an expired entry, so the store is
returned too), optionally keep only the most recent `max_messages`
entries (Python truthiness: `None` or `0` means no limit), and format
each entry for Bedrock. -/
def getConversationHistoryMem (store : Store) (cid : String) (now : Nat)
    (maxMessages : Option Nat) : Store × List BMsg :=
  let p := getSessionMem store cid now
  match p.2 with
  | none => (p.1, [])
  | some s =>
    let hist := s.conversation_history
    let hist :=
      match maxMessages with
      | none => hist
      | some k =>
        if k ≠ 0 ∧ hist.length > k then hist.drop (hist.length - k) else hist
    (p.1, hist.map (fun m => { role := m.role, text := m.content }))

/-- A tool call as parsed out of a Bedrock response
(`bedrock_client._parse_response` / `_invoke_with_streaming` build
`{"id", "name", "input"}`).  `execute_tools` reads the id with
`tool_call.get("id", str(uuid.uuid4()))`, so `id` is optional here. -/
structure ToolCall where
  id : Option String
  name : String
  input : JVal

/-- A tool result as built by `handler.execute_tools`:
`{"tool_use_id": ..., "content": json.dumps(result)}`.  The serialized
content is represented by its parsed `JVal` form. -/
structure ToolResult where
  tool_use_id : String
  content : JVal

/-- The dictionary `bedrock_client.generate_response` returns.  The
error branches of the source return only `response` and `action`; the
handler reads the missing keys with `.get("tool_calls", [])` and
`.get("stop_reason")`-style defaults, so those branches use `[]` and
`none` here. -/
structure BResp where
  response : String
  action : String
  tool_calls : List ToolCall
  stop_reason : Option String

/-- The closing phrases `bedrock_client._build_response` scans for. -/
def closingPhrases : List String :=
  ["goodbye", "have a great day", "thank you for calling", "take care"]

/-- Substring test on char lists: `needle.isPrefixOf` somewhere in the
hay, mirroring Python `needle in hay`. -/
def containsSubChars (needle : List Char) : List Char → Bool
  | [] => needle.isEmpty
  | c :: rest => needle.isPrefixOf (c :: rest) || containsSubChars needle rest

/-- Python `needle in hay` on strings. -/
def containsSub (hay needle : String) : Bool :=
  containsSubChars needle.toList hay.toList

/-- Python `text.lower()`, character-wise. -/
def strLower (s : String) : String :=
  ⟨s.data.map Char.toLower⟩

/-- BedrockClient._build_response: derives the action verdict.  When the
stop reason is `tool_use` and there are tool calls, the verdict comes
from the structured signal (transfer if some call is
`transfer_to_agent`); otherwise the lexical fallback on the lowercased
text applies (closing phrase implies end, else "transfer" and "agent"
co-occurring implies transfer, else continue). -/
def buildResponse (text : String) (tool_calls : List ToolCall)
    (stop_reason : Option String) : BResp :=
  let textLower := strLower text
  let action :=
    if stop_reason = some "tool_use" ∧ tool_calls.isEmpty = false then
      if tool_calls.any (fun tc => tc.name = "transfer_to_agent") then "transfer"
      else "continue"
    else if closingPhrases.any (fun p => containsSub textLower p) then "end"
    else if containsSub textLower "transfer" && containsSub textLower "agent" then "transfer"
    else "continue"
  { response := text
    action := action
    tool_calls := tool_calls
    stop_reason := stop_reason }

/-- An apostrophe, kept out of string literals. -/
def apoStr : String := String.singleton (Char.ofNat 39)

/-- Fallback text for `ThrottlingException` in
`bedrock_client.generate_response`. -/
def throttledMessage : String :=
  "I" ++ apoStr ++ "m experiencing high demand right now. Please hold on a moment."

/-- Fallback text for `ModelStreamErrorException`. -/
def streamErrorMessage : String :=
  "I had a brief issue. Could you please repeat that?"

/-- Fallback text for any other Bedrock `ClientError`. -/
def bedrockTransferMessage : String :=
  "I" ++ apoStr ++ "m having trouble processing your request. Let me transfer you to an agent."

/-- Fallback text for an uncategorized exception inside the Bedrock call. -/
def bedrockUnexpectedMessage : String :=
  "I encountered an issue. Let me connect you with someone who can help."

/-- The outcome of one attempt to invoke the Bedrock model: a parsed
success (text, tool calls, stop reason, which the source feeds to
`_build_response`), a botocore `ClientError` carrying its error code, or
any other exception. -/
inductive InvokeOutcome where
  | success (text : String) (tool_calls : List ToolCall) (stop_reason : Option String)
  | clientError (code : String)
  | unexpected (message : String)

/-- BedrockClient.generate_response: on success the `_build_response`
dictionary is returned; a `ClientError` is mapped by its code
(throttling and stream errors continue with fixed filler text, anything
else transfers), and any other exception transfers.  Every failure text
is a fixed string with no detail from the error. -/
def generateResponse (outcome : InvokeOutcome) : BResp :=
  match outcome with
  | InvokeOutcome.success text tcs sr => buildResponse text tcs sr
  | InvokeOutcome.clientError code =>
    if code = "ThrottlingException" then
      { response := throttledMessage, action := "continue", tool_calls := [], stop_reason := none }
    else if code = "ModelStreamErrorException" then
      { response := streamErrorMessage, action := "continue", tool_calls := [], stop_reason := none }
    else
      { response := bedrockTransferMessage, action := "transfer", tool_calls := [], stop_reason := none }
  | InvokeOutcome.unexpected _ =>
    { response := bedrockUnexpectedMessage, action := "transfer", tool_calls := [], stop_reason := none }

/-- The tool names `handler.execute_tools` dispatches on. -/
def knownToolNames : List String :=
  ["search_knowledge_base", "lookup_account", "schedule_appointment", "transfer_to_agent"]

/-- handler.execute_knowledge_base_search: its body consults Neptune or
the Bedrock knowledge base, both external; the whole lookup is an oracle
from the extracted query.  An `Except.error` models the body raising. -/
def executeKnowledgeBaseSearch (kb : String → Except String JVal)
    (tool_input : JVal) : Except String JVal :=
  kb (jgetStr tool_input "query" "")

/-- handler.execute_account_lookup: a pure placeholder dict; the account
id defaults to the session's phone number. -/
def executeAccountLookup (tool_input : JVal) (session : Session) : JVal :=
  JVal.obj
    [ ("account_id", JVal.str (jgetStr tool_input "account_id" session.phone_number))
    , ("status", JVal.str "active")
    , ("message", JVal.str "Account lookup would be performed here") ]

/-- handler.execute_schedule_appointment: a pure placeholder dict whose
`appointment_id` is a fresh UUID, passed in as `apptId`. -/
def executeScheduleAppointment (tool_input : JVal) (apptId : String) : JVal :=
  JVal.obj
    [ ("appointment_id", JVal.str apptId)
    , ("date", JVal.str (jgetStr tool_input "date" ""))
    , ("time", JVal.str (jgetStr tool_input "time" ""))
    , ("type", JVal.str (jgetStr tool_input "type" "general"))
    , ("status", JVal.str "pending")
    , ("message", JVal.str "Appointment scheduling would be performed here") ]

/-- The dispatch inside the `try` of `handler.execute_tools` for the
`i`-th call: known tools run (only the knowledge-base search can raise,
via its oracle), `transfer_to_agent` is handled inline, and an unknown
name yields an error-shaped dict without raising. -/
def runTool (kb : String → Except String JVal) (session : Session)
    (freshAppt : Nat → String) (i : Nat) (name : String) (tool_input : JVal) :
    Except String JVal :=
  if name = "search_knowledge_base" then executeKnowledgeBaseSearch kb tool_input
  else if name = "lookup_account" then Except.ok (executeAccountLookup tool_input session)
  else if name = "schedule_appointment" then
    Except.ok (executeScheduleAppointment tool_input (freshAppt i))
  else if name = "transfer_to_agent" then
    Except.ok (JVal.obj
      [ ("transfer_requested", JVal.bool true)
      , ("department", JVal.str (jgetStr tool_input "department" "general")) ])
  else Except.ok (JVal.obj [("error", JVal.str ("Unknown tool: " ++ name))])

/-- One iteration of the loop in `handler.execute_tools`: run the tool
under the `try`, and turn a raised exception into an error-shaped result
for the same call id (defaulted to a fresh UUID when absent). -/
def mkToolResult (kb : String → Except String JVal) (session : Session)
    (freshId freshAppt : Nat → String) (i : Nat) (tc : ToolCall) : ToolResult :=
  let toolId := tc.id.getD (freshId i)
  match runTool kb session freshAppt i tc.name tc.input with
  | Except.ok result => { tool_use_id := toolId, content := result }
  | Except.error e =>
    { tool_use_id := toolId, content := JVal.obj [("error", JVal.str e)] }

/-- The loop of `handler.execute_tools`, indexed so the i-th call draws
the i-th fresh UUIDs. -/
def executeToolsAux (kb : String → Except String JVal) (session : Session)
    (freshId freshAppt : Nat → String) : Nat → List ToolCall → List ToolResult
  | _, [] => []
  | i, tc :: rest =>
    mkToolResult kb session freshId freshAppt i tc ::
      executeToolsAux kb session freshId freshAppt (i + 1) rest

/-- handler.execute_tools: every call contributes exactly one result, in
order, and no failure escapes the loop. -/
def executeTools (kb : String → Except String JVal) (session : Session)
    (freshId freshAppt : Nat → String) (calls : List ToolCall) : List ToolResult :=
  executeToolsAux kb session freshId freshAppt 0 calls

/-- The `error` sub-dictionary `error_handler.handle_error` attaches to
its responses (`VoiceAgentError.to_dict` without the free-form
`details`). -/
structure ErrInfo where
  error_code : String
  message : String
  recoverable : Bool
deriving DecidableEq

/-- The response dictionary the Lambda returns to Connect.  `sessionId`,
`turnCount` and `error` are present only on some paths, hence `Option`. -/
structure RespDict where
  response : String
  action : String
  sessionId : Option String
  turnCount : Option Nat
  error : Option ErrInfo
deriving DecidableEq

/-- An exception reaching `lambda_handler`'s catch clauses: a
`VoiceAgentError` (the duck-typed hierarchy of `error_handler.py`,
distinguished by error code and recoverable flag), a `TimeoutError`, or
any other exception. -/
inductive PyExc where
  | voiceAgentError (message : String) (errorCode : String) (recoverable : Bool)
  | timeoutError (message : String)
  | otherError (message : String)
deriving DecidableEq

/-- Fixed text of `error_handler._handle_voice_agent_error` for
`RATE_LIMIT_ERROR`. -/
def rateLimitMessage : String :=
  "I" ++ apoStr ++ "m experiencing high demand right now. Please try again in a moment."

/-- Fixed text for a recoverable `BEDROCK_ERROR`. -/
def rephraseMessage : String :=
  "I had trouble processing that. Could you please rephrase?"

/-- Fixed text for a recoverable `NEPTUNE_ERROR`. -/
def neptuneFillerMessage : String := "Let me help you with that."

/-- Fixed text for any other recoverable `VoiceAgentError`. -/
def briefIssueMessage : String := "I encountered a brief issue. Please continue."

/-- Fixed text for a non-recoverable `VoiceAgentError`. -/
def techDifficultyMessage : String :=
  "I" ++ apoStr ++ "m having technical difficulties. Let me connect you with someone who can help."

/-- Fixed text of `error_handler._handle_timeout_error`. -/
def timeoutMessage : String :=
  "I" ++ apoStr ++ "m taking longer than expected. Let me try a different approach."

/-- Fixed text of `error_handler._handle_unexpected_error`. -/
def unexpectedErrorMessage : String :=
  "I apologize, but I" ++ apoStr ++ "m experiencing technical issues. Let me transfer you to someone who can assist."

/-- error_handler.handle_error: maps every exception to a caller-safe
response dictionary.  Recoverable `VoiceAgentError`s continue with fixed
filler text chosen by error code, non-recoverable ones transfer; a
`TimeoutError` continues; anything else transfers with a generic
apology and no internal detail in the response text. -/
def handleError (e : PyExc) : RespDict :=
  match e with
  | PyExc.voiceAgentError msg code recoverable =>
    if recoverable then
      if code = "RATE_LIMIT_ERROR" then
        { response := rateLimitMessage, action := "continue", sessionId := none,
          turnCount := none, error := some ⟨code, msg, true⟩ }
      else if code = "BEDROCK_ERROR" then
        { response := rephraseMessage, action := "continue", sessionId := none,
          turnCount := none, error := some ⟨code, msg, true⟩ }
      else if code = "NEPTUNE_ERROR" then
        { response := neptuneFillerMessage, action := "continue", sessionId := none,
          turnCount := none, error := some ⟨code, msg, true⟩ }
      else
        { response := briefIssueMessage, action := "continue", sessionId := none,
          turnCount := none, error := some ⟨code, msg, true⟩ }
    else
      { response := techDifficultyMessage, action := "transfer", sessionId := none,
        turnCount := none, error := some ⟨code, msg, false⟩ }
  | PyExc.timeoutError _ =>
    { response := timeoutMessage, action := "continue", sessionId := none,
      turnCount := none, error := some ⟨"TIMEOUT_ERROR", "Operation timed out", true⟩ }
  | PyExc.otherError _ =>
    { response := unexpectedErrorMessage, action := "transfer", sessionId := none,
      turnCount := none, error := some ⟨"INTERNAL_ERROR", "An unexpected error occurred", false⟩ }

/-- The fixed hand-off text `handler.handle_user_input` substitutes when
the turn cap is reached. -/
def handoffMessage : String :=
  "I" ++ apoStr ++ "ve been helping you for a while now. Let me transfer you to a specialist who can continue assisting you."

/-- What one call to `handler.handle_user_input` produced: the response
dictionary, the final store, the trace of Bedrock invocations (the
`tool_results` argument passed to each `generate_response` call, in
order), and the argument lists of the `execute_tools` invocations made. -/
structure TurnOutcome where
  resp : RespDict
  store : Store
  trace : List (Option (List ToolResult))
  executed : List (List ToolCall)

/-- The tool phase of `handler.handle_user_input` (its `if tool_calls:`
block): if the primary response carries tool calls, execute them and, if
that produced results, make exactly one follow-up `generate_response`
call whose text and action supersede the primary ones.  Returns the
response text, the action, the Bedrock invocation trace of the whole
turn, and the `execute_tools` invocations made. -/
def toolPhase (kb : String → Except String JVal) (freshId freshAppt : Nat → String)
    (backend : Nat → InvokeOutcome) (sessForTools : Session) (br1 : BResp) :
    String × String × List (Option (List ToolResult)) × List (List ToolCall) :=
  if br1.tool_calls.isEmpty then (br1.response, br1.action, [none], [])
  else
    let tool_results := executeTools kb sessForTools freshId freshAppt br1.tool_calls
    if tool_results.isEmpty then
      (br1.response, br1.action, [none], [br1.tool_calls])
    else
      let br2 := generateResponse (backend 1)
      (br2.response, br2.action, [none, some tool_results], [br1.tool_calls])

/-- handler.handle_user_input, in the default configuration (in-memory
sessions, Neptune disabled).  The Bedrock backend is an oracle indexed
by invocation ordinal within the turn (0 = primary, 1 = follow-up); its
outcome is fed through `generateResponse` exactly as the source feeds
the API result through its parsing and error handling.

In the in-memory backing the Python `session` variable aliases the
stored dict (`get_session` returns the object itself), so mutations made
through `add_message` are visible in it; under value semantics this
aliasing is modelled by re-reading the stored session where the source
reads the shared `session` object after `add_message` has run. -/
def handleUserInput (cfg : Config) (kb : String → Except String JVal)
    (freshId freshAppt : Nat → String) (backend : Nat → InvokeOutcome)
    (sid : String) (now : Nat) (store0 : Store)
    (cid phone userInput : String) : TurnOutcome :=
  let p1 := getSessionMem store0 cid now
  let pc : Store × Session :=
    match p1.2 with
    | some s => (p1.1, s)
    | none => createSessionMem cfg sid now p1.1 cid phone
  let store2 := pc.1
  let session := pc.2
  let store3 := addMessageMem cfg now store2 cid "user" userInput
  let ph := getConversationHistoryMem store3 cid now none
  let store4 := ph.1
  let convHistory := ph.2
  let br1 := generateResponse (backend 0)
  let afterTools := toolPhase kb freshId freshAppt backend ((storeGet store4 cid).getD session) br1
  let responseText1 := afterTools.1
  let action1 := afterTools.2.1
  let trace := afterTools.2.2.1
  let executed := afterTools.2.2.2
  let store5 := addMessageMem cfg now store4 cid "assistant" responseText1
  let turnCount := convHistory.length / 2
  let responseText := if cfg.maxTurns ≤ turnCount then handoffMessage else responseText1
  let action := if cfg.maxTurns ≤ turnCount then "transfer" else action1
  let sFinal := { ((storeGet store5 cid).getD session) with turn_count := turnCount }
  let store6 := updateSessionMem cfg now store5 cid sFinal
  { resp :=
      { response := responseText, action := action,
        sessionId := some session.session_id, turnCount := some turnCount,
        error := none }
    store := store6
    trace := trace
    executed := executed }

/-- handler.handle_init: create a fresh session, store the configured
greeting as the first assistant message, return it with action
`continue` (Neptune caller-history enrichment disabled by default). -/
def handleInit (cfg : Config) (sid : String) (now : Nat) (store0 : Store)
    (cid phone : String) : RespDict × Store :=
  let pc := createSessionMem cfg sid now store0 cid phone
  let store1 := addMessageMem cfg now pc.1 cid "assistant" cfg.greeting
  ( { response := cfg.greeting, action := "continue",
      sessionId := some pc.2.session_id, turnCount := none, error := none }
  , store1 )

/-- handler.handle_end: look the session up (for the Neptune completion
hook, disabled by default), end it, and return the configured goodbye
with action `end`. -/
def handleEnd (cfg : Config) (now : Nat) (store0 : Store) (cid : String) :
    RespDict × Store :=
  let p := getSessionMem store0 cid now
  let store1 := endSessionMem now p.1 cid
  ( { response := cfg.goodbye, action := "end", sessionId := none,
      turnCount := none, error := none }
  , store1 )

/-- The fields `lambda_handler` extracts from the Connect event, each
optional because the source reads them with `.get` defaults. -/
structure ConnectEvent where
  contactId : Option String
  customerAddress : Option String
  userInput : Option String
  eventType : Option String

/-- handler.lambda_handler: parse the event with its `.get` defaults
(a fresh UUID contact id, phone "unknown", empty input, event type
"user_input"), dispatch on the event type (an unknown type falls back to
`handle_user_input`), and convert any exception raised in the body into
a caller-safe dictionary via `handle_error`.  Exceptions raised by
collaborators outside the embedded fragment (DynamoDB `ClientError`
propagated from `create_session`/`update_session`, Neptune, metrics) are
modelled by the `raised` input, which the source's try/except routes to
`handle_error`. -/
def lambdaHandler (cfg : Config) (kb : String → Except String JVal)
    (freshId freshAppt : Nat → String) (backend : Nat → InvokeOutcome)
    (sid freshContact : String) (now : Nat) (store0 : Store)
    (ev : ConnectEvent) (raised : Option PyExc) : RespDict × Store :=
  match raised with
  | some e => (handleError e, store0)
  | none =>
    let contactId := ev.contactId.getD freshContact
    let phone := ev.customerAddress.getD "unknown"
    let userInput := ev.userInput.getD ""
    let eventType := ev.eventType.getD "user_input"
    if eventType = "init" then handleInit cfg sid now store0 contactId phone
    else if eventType = "user_input" then
      let t := handleUserInput cfg kb freshId freshAppt backend sid now store0 contactId phone userInput
      (t.resp, t.store)
    else if eventType = "end" then handleEnd cfg now store0 contactId
    else
      let t := handleUserInput cfg kb freshId freshAppt backend sid now store0 contactId phone userInput
      (t.resp, t.store)

/-- The last `k` elements of a list (all of it when it is shorter),
written with truncated subtraction. -/
def lastK {α : Type} (k : Nat) (l : List α) : List α :=
  l.drop (l.length - k)

theorem lastK_length_le {α : Type} (k : Nat) (l : List α) :
    (lastK k l).length ≤ k := by
  simp only [lastK, List.length_drop]
  omega

theorem lastK_of_length_le {α : Type} (k : Nat) (l : List α)
    (h : l.length ≤ k) : lastK k l = l := by
  simp [lastK, Nat.sub_eq_zero_of_le h]

theorem addTrim_eq_lastK (m : Nat) (hm : 0 < m) (hist : List Message)
    (msg : Message) :
    addTrim m hist msg = lastK (m * 2) (hist ++ [msg]) := by
  simp only [addTrim, lastK]
  have hne : ¬ m * 2 = 0 := by omega
  by_cases h : (hist ++ [msg]).length > m * 2
  · rw [if_pos h, if_neg hne]
  · rw [if_neg h, Nat.sub_eq_zero_of_le (Nat.le_of_not_lt h), List.drop_zero]

theorem lastK_append_lastK {α : Type} (k : Nat) (l₁ l₂ : List α) :
    lastK k (lastK k l₁ ++ l₂) = lastK k (l₁ ++ l₂) := by
  simp only [lastK]
  rw [← List.drop_append_of_le_length (Nat.sub_le l₁.length k), List.drop_drop]
  congr 1
  simp only [List.length_append, List.length_drop]
  omega

theorem foldl_addTrim (m : Nat) (hm : 0 < m) (es : List Message) :
    ∀ h0 : List Message, h0.length ≤ m * 2 →
      es.foldl (addTrim m) h0 = lastK (m * 2) (h0 ++ es) := by
  induction es with
  | nil => intro h0 hlen; simp [lastK_of_length_le _ _ hlen]
  | cons e rest ih =>
    intro h0 hlen
    have step : (e :: rest).foldl (addTrim m) h0 = rest.foldl (addTrim m) (addTrim m h0 e) := rfl
    rw [step, ih _ (by rw [addTrim_eq_lastK m hm]; exact lastK_length_le _ _)]
    rw [addTrim_eq_lastK m hm, lastK_append_lastK]
    simp

theorem executeToolsAux_length (kb : String → Except String JVal)
    (session : Session) (freshId freshAppt : Nat → String) :
    ∀ (calls : List ToolCall) (k : Nat),
      (executeToolsAux kb session freshId freshAppt k calls).length = calls.length := by
  intro calls
  induction calls with
  | nil => intro k; rfl
  | cons tc rest ih => intro k; simp [executeToolsAux, ih]

theorem executeToolsAux_get? (kb : String → Except String JVal)
    (session : Session) (freshId freshAppt : Nat → String) :
    ∀ (calls : List ToolCall) (k i : Nat),
      (executeToolsAux kb session freshId freshAppt k calls).get? i
        = (calls.get? i).map (fun tc => mkToolResult kb session freshId freshAppt (k + i) tc) := by
  intro calls
  induction calls with
  | nil => intro k i; rfl
  | cons tc rest ih =>
    intro k i
    cases i with
    | zero => rfl
    | succ j =>
      show (executeToolsAux kb session freshId freshAppt (k + 1) rest).get? j
        = (rest.get? j).map (fun tc => mkToolResult kb session freshId freshAppt (k + (j + 1)) tc)
      rw [ih (k + 1) j]
      have hk : k + 1 + j = k + (j + 1) := by omega
      rw [hk]

theorem buildResponse_action_mem (text : String) (tcs : List ToolCall)
    (sr : Option String) :
    (buildResponse text tcs sr).action = "continue"
  ∨ (buildResponse text tcs sr).action = "transfer"
  ∨ (buildResponse text tcs sr).action = "end" := by
  simp only [buildResponse]
  split
  · split
    · exact Or.inr (Or.inl rfl)
    · exact Or.inl rfl
  · split
    · exact Or.inr (Or.inr rfl)
    · split
      · exact Or.inr (Or.inl rfl)
      · exact Or.inl rfl

theorem generateResponse_action_mem (o : InvokeOutcome) :
    (generateResponse o).action = "continue"
  ∨ (generateResponse o).action = "transfer"
  ∨ (generateResponse o).action = "end" := by
  cases o with
  | success text tcs sr => exact buildResponse_action_mem text tcs sr
  | clientError code =>
    simp only [generateResponse]
    split
    · exact Or.inl rfl
    · split
      · exact Or.inl rfl
      · exact Or.inr (Or.inl rfl)
  | unexpected msg => exact Or.inr (Or.inl rfl)

theorem handleError_action_mem (e : PyExc) :
    (handleError e).action = "continue" ∨ (handleError e).action = "transfer" := by
  cases e with
  | voiceAgentError msg code recoverable =>
    simp only [handleError]
    split
    · split
      · exact Or.inl rfl
      · split
        · exact Or.inl rfl
        · split
          · exact Or.inl rfl
          · exact Or.inl rfl
    · exact Or.inr rfl
  | timeoutError msg => exact Or.inl rfl
  | otherError msg => exact Or.inr rfl

theorem toolPhase_action (kb : String → Except String JVal)
    (freshId freshAppt : Nat → String) (backend : Nat → InvokeOutcome)
    (sess : Session) (br1 : BResp) :
    (toolPhase kb freshId freshAppt backend sess br1).2.1 = br1.action
  ∨ (toolPhase kb freshId freshAppt backend sess br1).2.1
      = (generateResponse (backend 1)).action := by
  simp only [toolPhase]
  split
  · exact Or.inl rfl
  · split
    · exact Or.inl rfl
    · exact Or.inr rfl

/-- C5: for every contact identifier and every current time, if the
stored session's expiry timestamp is in the past then `get_session`
returns absent, in both the in-memory and the DynamoDB backing; the
check happens on the read itself. -/
theorem expired_session_absent (store table : Store) (cid : String)
    (now : Nat) (s s' : Session) :
    (storeGet store cid = some s → s.ttl < now →
       (getSessionMem store cid now).2 = none)
  ∧ (storeGet table cid = some s' → s'.ttl < now →
       getSessionDyn table cid now = none) := by
  constructor
  · intro hget hlt
    simp [getSessionMem, hget, hlt]
  · intro hget hlt
    simp [getSessionDyn, hget, hlt]

/-- A session fixture whose expiry timestamp (5) is in the past at time 10. -/
def sExpired : Session :=
  ⟨"sidE", "cE", "pE", 0, 0, 5, [], 0, "active", none⟩

theorem expired_session_absent_witness :
    (getSessionMem [("cE", sExpired)] "cE" 10).2 = none
  ∧ getSessionDyn [("cE", sExpired)] "cE" 10 = none := by
  have h := expired_session_absent [("cE", sExpired)] [("cE", sExpired)] "cE" 10 sExpired sExpired
  exact ⟨h.1 (by decide) (by decide), h.2 (by decide) (by decide)⟩

/-- C7: every failure of the primary inference call is mapped to a
caller-safe response: throttling continues with the fixed hold text, a
model stream error continues with the fixed repeat text, every other
client error transfers, and any uncategorized exception transfers — in
each case the response text is a fixed string carrying no detail of the
underlying error. -/
theorem backend_failure_action_map (code msg : String) :
    generateResponse (InvokeOutcome.clientError "ThrottlingException")
      = { response := throttledMessage, action := "continue", tool_calls := [], stop_reason := none }
  ∧ generateResponse (InvokeOutcome.clientError "ModelStreamErrorException")
      = { response := streamErrorMessage, action := "continue", tool_calls := [], stop_reason := none }
  ∧ (code ≠ "ThrottlingException" → code ≠ "ModelStreamErrorException" →
      generateResponse (InvokeOutcome.clientError code)
        = { response := bedrockTransferMessage, action := "transfer", tool_calls := [], stop_reason := none })
  ∧ generateResponse (InvokeOutcome.unexpected msg)
      = { response := bedrockUnexpectedMessage, action := "transfer", tool_calls := [], stop_reason := none } := by
  refine ⟨rfl, rfl, ?_, rfl⟩
  intro h1 h2
  simp [generateResponse, h1, h2]

theorem backend_failure_action_map_witness :
    generateResponse (InvokeOutcome.clientError "ValidationException")
      = { response := bedrockTransferMessage, action := "transfer", tool_calls := [], stop_reason := none } :=
  (backend_failure_action_map "ValidationException" "boom").2.2.1 (by decide) (by decide)

/-- C8: the action verdict of `_build_response` comes from the
structured stop signal when the backend stopped for tool use with at
least one tool call (transfer exactly when a `transfer_to_agent` call is
present, and independently of the response text); the lexical fallback
applies only when there is no such structured tool signal — a closing
phrase implies `end`, otherwise co-occurrence of "transfer" and "agent"
implies `transfer`, otherwise the action is `continue`. -/
theorem action_verdict_derivation (text : String) (tcs : List ToolCall)
    (sr : Option String) :
    ((sr = some "tool_use" ∧ tcs.isEmpty = false) →
       ((tcs.any (fun tc => tc.name = "transfer_to_agent") = true →
           (buildResponse text tcs sr).action = "transfer")
        ∧ (tcs.any (fun tc => tc.name = "transfer_to_agent") = false →
           (buildResponse text tcs sr).action = "continue")
        ∧ ∀ t2 : String, (buildResponse t2 tcs sr).action = (buildResponse text tcs sr).action))
  ∧ (¬ (sr = some "tool_use" ∧ tcs.isEmpty = false) →
       ((closingPhrases.any (fun p => containsSub (strLower text) p) = true →
           (buildResponse text tcs sr).action = "end")
        ∧ (closingPhrases.any (fun p => containsSub (strLower text) p) = false →
           (containsSub (strLower text) "transfer" && containsSub (strLower text) "agent") = true →
           (buildResponse text tcs sr).action = "transfer")
        ∧ (closingPhrases.any (fun p => containsSub (strLower text) p) = false →
           (containsSub (strLower text) "transfer" && containsSub (strLower text) "agent") = false →
           (buildResponse text tcs sr).action = "continue"))) := by
  constructor
  · intro hsig
    refine ⟨?_, ?_, ?_⟩
    · intro hany
      simp [buildResponse, hsig.1, hsig.2, hany]
    · intro hany
      simp [buildResponse, hsig.1, hsig.2, hany]
    · intro t2
      simp [buildResponse, hsig.1, hsig.2]
  · intro hsig
    simp only [buildResponse]
    rw [if_neg hsig]
    refine ⟨?_, ?_, ?_⟩
    · intro hcl
      rw [if_pos hcl]
    · intro hcl hta
      rw [if_neg (by simp [hcl]), if_pos hta]
    · intro hcl hta
      rw [if_neg (by simp [hcl]), if_neg (by simp [hta])]

theorem action_verdict_derivation_witness :
    (buildResponse "Goodbye, have a great day!" [] none).action = "end" :=
  ((action_verdict_derivation "Goodbye, have a great day!" [] none).2 (by decide)).1 (by decide)

/-- C6: every tool call passed to `execute_tools` contributes exactly one
result at its own position, keyed by its call identifier (or a fresh
UUID when absent); a tool body that raises yields an error-shaped result
for that call only, and an unknown tool name yields an error-shaped
result instead of raising — the function is total, so no turn is
aborted. -/
theorem execute_tools_isolated_results (kb : String → Except String JVal)
    (session : Session) (freshId freshAppt : Nat → String)
    (calls : List ToolCall) :
    (executeTools kb session freshId freshAppt calls).length = calls.length
  ∧ ∀ (i : Nat) (tc : ToolCall), calls.get? i = some tc →
      ∃ r : ToolResult,
        (executeTools kb session freshId freshAppt calls).get? i = some r
        ∧ r.tool_use_id = tc.id.getD (freshId i)
        ∧ (∀ e : String,
             runTool kb session freshAppt i tc.name tc.input = Except.error e →
             r.content = JVal.obj [("error", JVal.str e)])
        ∧ (tc.name ∉ knownToolNames →
             r.content = JVal.obj [("error", JVal.str ("Unknown tool: " ++ tc.name))]) := by
  constructor
  · exact executeToolsAux_length kb session freshId freshAppt calls 0
  · intro i tc hget
    refine ⟨mkToolResult kb session freshId freshAppt i tc, ?_, ?_, ?_, ?_⟩
    · simp only [executeTools]
      rw [executeToolsAux_get? kb session freshId freshAppt calls 0 i, hget]
      simp
    · cases hrun : runTool kb session freshAppt i tc.name tc.input <;>
        simp [mkToolResult, hrun]
    · intro e herr
      simp [mkToolResult, herr]
    · intro hunk
      simp only [knownToolNames, List.mem_cons, List.not_mem_nil, or_false, not_or] at hunk
      obtain ⟨h1, h2, h3, h4⟩ := hunk
      have hrun : runTool kb session freshAppt i tc.name tc.input
          = Except.ok (JVal.obj [("error", JVal.str ("Unknown tool: " ++ tc.name))]) := by
        simp [runTool, h1, h2, h3, h4]
      simp [mkToolResult, hrun]

/-- A knowledge-base oracle that raises, for exercising the error path. -/
def kbDown : String → Except String JVal := fun _ => Except.error "kb down"

/-- A live session fixture. -/
def sessW : Session := ⟨"sidW", "cW", "pW", 0, 0, 100, [], 0, "active", none⟩

theorem execute_tools_isolated_results_witness :
    (executeTools kbDown sessW (fun _ => "u") (fun _ => "u")
        [⟨some "id1", "search_knowledge_base", JVal.obj []⟩,
         ⟨some "id2", "bogus_tool", JVal.obj []⟩]).length = 2
  ∧ ∃ r : ToolResult,
      (executeTools kbDown sessW (fun _ => "u") (fun _ => "u")
          [⟨some "id1", "search_knowledge_base", JVal.obj []⟩,
           ⟨some "id2", "bogus_tool", JVal.obj []⟩]).get? 0 = some r
      ∧ r.tool_use_id = "id1"
      ∧ r.content = JVal.obj [("error", JVal.str "kb down")] := by
  have h := execute_tools_isolated_results kbDown sessW (fun _ => "u") (fun _ => "u")
    [⟨some "id1", "search_knowledge_base", JVal.obj []⟩,
     ⟨some "id2", "bogus_tool", JVal.obj []⟩]
  refine ⟨h.1.trans rfl, ?_⟩
  obtain ⟨r, hget, hid, herr, _⟩ :=
    h.2 0 ⟨some "id1", "search_knowledge_base", JVal.obj []⟩ rfl
  exact ⟨r, hget, hid, herr "kb down" rfl⟩

/-- After an in-memory `end_session`, the contact's entry is gone. -/
theorem endSessionMem_get_none (t : Nat) (store : Store) (cid : String) :
    storeGet (endSessionMem t store cid) cid = none := by
  simp only [endSessionMem]
  cases hg : storeGet store cid with
  | none =>
    have hp : getSessionMem store cid t = (store, none) := by
      simp [getSessionMem, hg]
    rw [hp]
    exact hg
  | some s =>
    by_cases hlt : s.ttl < t
    · have hp : getSessionMem store cid t = (storeErase store cid, none) := by
        simp [getSessionMem, hg, hlt]
      rw [hp]
      exact storeGet_erase_self store cid
    · have hp : getSessionMem store cid t = (store, some s) := by
        simp [getSessionMem, hg, hlt]
      rw [hp]
      exact storeGet_erase_self store cid

/-- `end_session` on an absent contact is a no-op (in-memory backing). -/
theorem endSessionMem_of_get_none (t : Nat) (store : Store) (cid : String)
    (h : storeGet store cid = none) : endSessionMem t store cid = store := by
  simp only [endSessionMem]
  have hp : getSessionMem store cid t = (store, none) := by
    simp [getSessionMem, h]
  rw [hp]

/-- Ending twice is ending once (in-memory backing). -/
theorem endSessionMem_idem (t1 t2 : Nat) (store : Store) (cid : String) :
    endSessionMem t2 (endSessionMem t1 store cid) cid = endSessionMem t1 store cid :=
  endSessionMem_of_get_none t2 _ cid (endSessionMem_get_none t1 store cid)

/-- A successful lookup's pair is in the store. -/
theorem storeGet_mem (st : Store) (c : String) (s : Session)
    (h : storeGet st c = some s) : (c, s) ∈ st := by
  induction st with
  | nil => simp [storeGet] at h
  | cons p rest ih =>
    by_cases hp : p.1 = c
    · simp only [storeGet, if_pos hp] at h
      cases p with
      | mk k v =>
        simp only at hp
        subst hp
        injection h with h
        subst h
        exact List.mem_cons_self _ _
    · simp only [storeGet, if_neg hp] at h
      exact List.mem_cons_of_mem _ (ih h)

/-- Every record in the store is keyed by its own `contact_id`
attribute — an invariant every write path of the source maintains
(the in-memory dict is keyed by the `contact_id` argument and the
DynamoDB table by the item's `contact_id` attribute). -/
def wellKeyed (st : Store) : Prop := ∀ p ∈ st, p.2.contact_id = p.1

instance (st : Store) : Decidable (wellKeyed st) := by
  unfold wellKeyed
  infer_instance

/-- An active unexpired session fixture for the double-end experiments. -/
def sActiveC9 : Session := ⟨"sid1", "c1", "p1", 0, 0, 1000, [], 0, "active", none⟩

/-- C9 counterexample: with the DynamoDB backing, ending the same contact
at time 100 and again at time 101 leaves the store in a different state
than ending it once — the second call rewrites the completed record with
`ended_at = 101`. -/
theorem end_twice_dynamo_counterexample :
    endSessionDyn 101 (endSessionDyn 100 [("c1", sActiveC9)] "c1") "c1"
      ≠ endSessionDyn 100 [("c1", sActiveC9)] "c1" := by decide

/-- C9 amended: calling `end_session` twice in succession never raises;
with the in-memory backing the second call is a no-op, so the store is
exactly the state after the first call; with the DynamoDB backing the
second call can change at most the `ended_at` timestamp of the contact's
completed record, leaving every other key and every other field as after
the first call. -/
theorem end_idempotent_amended (t1 t2 : Nat) (h12 : t1 ≤ t2) (cid : String) :
    (∀ store : Store,
       endSessionMem t2 (endSessionMem t1 store cid) cid = endSessionMem t1 store cid)
  ∧ (∀ table : Store, wellKeyed table →
       (∀ cid2 : String, cid2 ≠ cid →
          storeGet (endSessionDyn t2 (endSessionDyn t1 table cid) cid) cid2
            = storeGet (endSessionDyn t1 table cid) cid2)
       ∧ (∀ s2 : Session,
            storeGet (endSessionDyn t2 (endSessionDyn t1 table cid) cid) cid = some s2 →
            ∃ s1 : Session, storeGet (endSessionDyn t1 table cid) cid = some s1
              ∧ s2 = { s1 with ended_at := s2.ended_at })) := by
  constructor
  · intro store
    exact endSessionMem_idem t1 t2 store cid
  · intro table hwk
    cases hg : storeGet table cid with
    | none =>
      have h1 : endSessionDyn t1 table cid = table := by
        simp [endSessionDyn, getSessionDyn, hg]
      have h2 : endSessionDyn t2 table cid = table := by
        simp [endSessionDyn, getSessionDyn, hg]
      rw [h1, h2]
      exact ⟨fun cid2 _ => rfl, fun s2 hs2 => ⟨s2, hs2, rfl⟩⟩
    | some s =>
      have hkey : s.contact_id = cid := hwk (cid, s) (storeGet_mem table cid s hg)
      by_cases hlt1 : s.ttl < t1
      · have h1 : endSessionDyn t1 table cid = table := by
          simp [endSessionDyn, getSessionDyn, hg, hlt1]
        have hlt2 : s.ttl < t2 := lt_of_lt_of_le hlt1 h12
        have h2 : endSessionDyn t2 table cid = table := by
          simp [endSessionDyn, getSessionDyn, hg, hlt2]
        rw [h1, h2]
        exact ⟨fun cid2 _ => rfl, fun s2 hs2 => ⟨s2, hs2, rfl⟩⟩
      · have h1 : endSessionDyn t1 table cid
            = storeSet table cid { s with status := "completed", ended_at := some t1 } := by
          simp [endSessionDyn, getSessionDyn, hg, hlt1, putItemDyn, hkey]
        have hget1 : storeGet (endSessionDyn t1 table cid) cid
            = some { s with status := "completed", ended_at := some t1 } := by
          rw [h1]
          exact storeGet_set_self _ _ _
        by_cases hlt2 : s.ttl < t2
        · have h2 : endSessionDyn t2 (endSessionDyn t1 table cid) cid
              = endSessionDyn t1 table cid := by
            rw [h1]
            simp [endSessionDyn, getSessionDyn, storeGet_set_self, hlt2]
          rw [h2]
          exact ⟨fun cid2 _ => rfl, fun s2 hs2 => ⟨s2, hs2, rfl⟩⟩
        · have h2 : endSessionDyn t2 (endSessionDyn t1 table cid) cid
              = storeSet (endSessionDyn t1 table cid) cid
                  { s with status := "completed", ended_at := some t2 } := by
            rw [h1]
            simp [endSessionDyn, getSessionDyn, storeGet_set_self, hlt2, putItemDyn, hkey]
          constructor
          · intro cid2 hne
            rw [h2, storeGet_set_ne _ _ _ _ hne]
          · intro s2 hs2
            rw [h2, storeGet_set_self] at hs2
            injection hs2 with hs2
            refine ⟨{ s with status := "completed", ended_at := some t1 }, hget1, ?_⟩
            rw [← hs2]

theorem end_idempotent_amended_witness :
    endSessionMem 101 (endSessionMem 100 [("c1", sActiveC9)] "c1") "c1"
      = endSessionMem 100 [("c1", sActiveC9)] "c1"
  ∧ ∃ s1 : Session,
      storeGet (endSessionDyn 100 [("c1", sActiveC9)] "c1") "c1" = some s1
      ∧ (⟨"sid1", "c1", "p1", 0, 0, 1000, [], 0, "completed", some 101⟩ : Session)
          = { s1 with ended_at := some 101 } := by
  have h := end_idempotent_amended 100 101 (by decide) "c1"
  refine ⟨h.1 [("c1", sActiveC9)], ?_⟩
  have h2 := (h.2 [("c1", sActiveC9)] (by decide)).2
    ⟨"sid1", "c1", "p1", 0, 0, 1000, [], 0, "completed", some 101⟩ (by decide)
  obtain ⟨s1, hs1, heq⟩ := h2
  exact ⟨s1, hs1, heq⟩

/-- A completed but unexpired session fixture. -/
def sCompleted : Session := ⟨"sid9", "c9", "p9", 0, 5, 1000, [], 1, "completed", some 5⟩

/-- A configuration with the source's defaults. -/
def cfgShared : Config :=
  ⟨20, 3600, 50,
   "Hello! Thank you for calling. How can I help you today?",
   "Thank you for calling. Have a great day!"⟩

/-- C3 (code-bug exhibit): with the DynamoDB backing, `get_session` does
not check `status`, so a stored completed-but-unexpired session is
returned by the lookup, and `add_message` then appends a new turn to
that completed session — contradicting the invariant that a completed
session is never used for further conversation.  (The in-memory backing
evicts on end, so there the invariant holds.) -/
theorem completed_session_resurrected_dynamo :
    getSessionDyn [("c9", sCompleted)] "c9" 10 = some sCompleted
  ∧ sCompleted.status = "completed"
  ∧ (storeGet (addMessageDyn cfgShared 10 [("c9", sCompleted)] "c9" "user" "hello") "c9").map
      (fun s => (s.status, s.conversation_history.length)) = some ("completed", 1) := by
  refine ⟨by decide, rfl, by decide⟩

/-- Folding a sequence of `add_message` calls over a store that holds an
unexpired session for the contact updates exactly that session, keeping
it unexpired, and evolves its history by the append-then-trim step of
each call. -/
theorem addAll_history (cfg : Config) (now : Nat) (cid : String) :
    ∀ (msgs : List (String × String)) (st : Store) (s : Session),
      storeGet st cid = some s → ¬ s.ttl < now →
      ∃ s2 : Session,
        storeGet (msgs.foldl (fun acc rc => addMessageMem cfg now acc cid rc.1 rc.2) st) cid
          = some s2
        ∧ ¬ s2.ttl < now
        ∧ s2.conversation_history
            = (msgs.map (fun rc => (⟨rc.1, rc.2, now⟩ : Message))).foldl
                (addTrim cfg.maxHistoryLength) s.conversation_history := by
  intro msgs
  induction msgs with
  | nil =>
    intro st s hget httl
    exact ⟨s, hget, httl, rfl⟩
  | cons rc rest ih =>
    intro st s hget httl
    have hstep : addMessageMem cfg now st cid rc.1 rc.2
        = storeSet st cid
            { s with
                conversation_history :=
                  (addTrim cfg.maxHistoryLength s.conversation_history ⟨rc.1, rc.2, now⟩)
                updated_at := now
                ttl := now + cfg.sessionTtlSeconds } := by
      simp [addMessageMem, getSessionMem, hget, httl, updateSessionMem]
    obtain ⟨s2, hget2, httl2, hh⟩ := ih (addMessageMem cfg now st cid rc.1 rc.2)
      { s with
          conversation_history :=
            (addTrim cfg.maxHistoryLength s.conversation_history ⟨rc.1, rc.2, now⟩)
          updated_at := now
          ttl := now + cfg.sessionTtlSeconds }
      (by rw [hstep]; exact storeGet_set_self _ _ _)
      (Nat.not_lt.mpr (Nat.le_add_right now cfg.sessionTtlSeconds))
    refine ⟨s2, ?_, httl2, ?_⟩
    · simpa [List.foldl_cons] using hget2
    · exact hh

/-- C4 (amended): for every session whose configured history cap is
positive and every sequence of more than `2 × max_history_length`
appends, the stored conversation history holds exactly
`2 × max_history_length` entries, and they are exactly the most recent
appends in their original order — truncation removed only from the
oldest end.  (With a zero cap the source's slice `history[-0:]` keeps
the whole list, so no truncation ever happens; see the counterexample.) -/
theorem history_cap_fifo (cfg : Config) (hm : 0 < cfg.maxHistoryLength)
    (sid : String) (now : Nat)
    (cid phone : String) (msgs : List (String × String))
    (hN : msgs.length > cfg.maxHistoryLength * 2) :
    ∃ s : Session,
      storeGet (msgs.foldl (fun acc rc => addMessageMem cfg now acc cid rc.1 rc.2)
          (createSessionMem cfg sid now [] cid phone).1) cid = some s
      ∧ s.conversation_history
          = (msgs.map (fun rc => (⟨rc.1, rc.2, now⟩ : Message))).drop
              (msgs.length - cfg.maxHistoryLength * 2)
      ∧ s.conversation_history.length = cfg.maxHistoryLength * 2 := by
  obtain ⟨s2, hget2, _, hh⟩ := addAll_history cfg now cid msgs
    (createSessionMem cfg sid now [] cid phone).1
    { session_id := sid, contact_id := cid, phone_number := phone,
      created_at := now, updated_at := now, ttl := now + cfg.sessionTtlSeconds,
      conversation_history := [], turn_count := 0, status := "active",
      ended_at := none }
    (storeGet_set_self _ _ _)
    (Nat.not_lt.mpr (Nat.le_add_right now cfg.sessionTtlSeconds))
  have hfold : s2.conversation_history
      = lastK (cfg.maxHistoryLength * 2)
          (msgs.map (fun rc => (⟨rc.1, rc.2, now⟩ : Message))) := by
    rw [hh, foldl_addTrim cfg.maxHistoryLength hm _ [] (by simp)]
    simp
  refine ⟨s2, hget2, ?_, ?_⟩
  · rw [hfold]
    simp [lastK, List.length_map]
  · rw [hfold]
    simp only [lastK, List.length_drop, List.length_map]
    omega

/-- A tiny history cap for the witness. -/
def cfgW4 : Config := ⟨1, 100, 50, "g", "b"⟩

theorem history_cap_fifo_witness :
    ∃ s : Session,
      storeGet ([("user", "a"), ("assistant", "b"), ("user", "c")].foldl
          (fun acc rc => addMessageMem cfgW4 7 acc "cw" rc.1 rc.2)
          (createSessionMem cfgW4 "sid" 7 [] "cw" "p").1) "cw" = some s
      ∧ s.conversation_history = [⟨"assistant", "b", 7⟩, ⟨"user", "c", 7⟩]
      ∧ s.conversation_history.length = 2 := by
  obtain ⟨s, h1, h2, h3⟩ := history_cap_fifo cfgW4 (by decide) "sid" 7 "cw" "p"
    [("user", "a"), ("assistant", "b"), ("user", "c")] (by decide)
  refine ⟨s, h1, ?_, h3⟩
  rw [h2]
  decide

/-- A configuration with the history cap set to zero. -/
def cfgZero : Config := ⟨0, 100, 50, "g", "b"⟩

/-- C4 counterexample: with the history cap configured to zero, one
append already exceeds `2 × cap = 0`, yet the stored history holds that
one entry rather than the zero entries the claim demands — the source's
slice `history[-0:]` keeps the whole list, so the cap is never
enforced at zero. -/
theorem history_cap_fifo_counterexample :
    ([("user", "a")] : List (String × String)).length > cfgZero.maxHistoryLength * 2
  ∧ (storeGet ([("user", "a")].foldl
        (fun acc rc => addMessageMem cfgZero 7 acc "cz" rc.1 rc.2)
        (createSessionMem cfgZero "sid" 7 [] "cz" "p").1) "cz").map
      (fun s => s.conversation_history.length) = some 1
  ∧ some 1 ≠ some (cfgZero.maxHistoryLength * 2) := by
  refine ⟨by decide, by decide, by decide⟩

/-- C1: whenever the turn count computed by `handle_user_input` (half the
fetched history length, which it also returns) has reached the
configured maximum, the returned action is `transfer` and the returned
text is the fixed hand-off message — regardless of the store, the
backend's responses, and any tool activity. -/
theorem turn_cap_forces_transfer (cfg : Config) (kb : String → Except String JVal)
    (freshId freshAppt : Nat → String) (backend : Nat → InvokeOutcome)
    (sid : String) (now : Nat) (store0 : Store) (cid phone userInput : String)
    (n : Nat)
    (hc : (handleUserInput cfg kb freshId freshAppt backend sid now store0
            cid phone userInput).resp.turnCount = some n)
    (hmax : cfg.maxTurns ≤ n) :
    (handleUserInput cfg kb freshId freshAppt backend sid now store0
       cid phone userInput).resp.action = "transfer"
  ∧ (handleUserInput cfg kb freshId freshAppt backend sid now store0
       cid phone userInput).resp.response = handoffMessage := by
  simp only [handleUserInput, Option.some.injEq] at hc ⊢
  subst hc
  rw [if_pos hmax, if_pos hmax]
  exact ⟨rfl, rfl⟩

/-- The configured maximum set to zero, so the very first turn hits the cap. -/
def cfgW1 : Config := ⟨20, 3600, 0, "g", "b"⟩

/-- A backend that answers plainly with no tool calls. -/
def backendPlain : Nat → InvokeOutcome :=
  fun _ => InvokeOutcome.success "ok" [] (some "end_turn")

/-- A knowledge-base oracle that succeeds with an empty result object. -/
def kbOk : String → Except String JVal := fun _ => Except.ok (JVal.obj [])

theorem turn_cap_forces_transfer_witness :
    (handleUserInput cfgW1 kbOk (fun _ => "u") (fun _ => "u") backendPlain
       "sid" 5 [] "cw1" "p" "hi").resp.action = "transfer"
  ∧ (handleUserInput cfgW1 kbOk (fun _ => "u") (fun _ => "u") backendPlain
       "sid" 5 [] "cw1" "p" "hi").resp.response = handoffMessage :=
  turn_cap_forces_transfer cfgW1 kbOk (fun _ => "u") (fun _ => "u") backendPlain
    "sid" 5 [] "cw1" "p" "hi" 0 (by decide) (by decide)

/-- C2: per call to `handle_user_input` there are at most two Bedrock
invocations; a follow-up happens exactly when the primary response
carries tool calls, and then the follow-up is invoked with the results
of executing exactly those calls (one result per call); `execute_tools`
runs only on the primary response's calls, so tool calls in the
follow-up response are never executed; and (below the turn cap) the
follow-up's text and action supersede the primary's as-is. -/
theorem single_followup_bound (cfg : Config) (kb : String → Except String JVal)
    (freshId freshAppt : Nat → String) (backend : Nat → InvokeOutcome)
    (sid : String) (now : Nat) (store0 : Store) (cid phone userInput : String) :
    ((handleUserInput cfg kb freshId freshAppt backend sid now store0
        cid phone userInput).trace.length ≤ 2)
  ∧ ((handleUserInput cfg kb freshId freshAppt backend sid now store0
        cid phone userInput).trace.length = 2
      ↔ (generateResponse (backend 0)).tool_calls ≠ [])
  ∧ ((generateResponse (backend 0)).tool_calls = [] →
       (handleUserInput cfg kb freshId freshAppt backend sid now store0
          cid phone userInput).trace = [none]
       ∧ (handleUserInput cfg kb freshId freshAppt backend sid now store0
            cid phone userInput).executed = [])
  ∧ ((generateResponse (backend 0)).tool_calls ≠ [] →
       (∃ rs : List ToolResult,
          (handleUserInput cfg kb freshId freshAppt backend sid now store0
             cid phone userInput).trace = [none, some rs]
          ∧ rs.length = (generateResponse (backend 0)).tool_calls.length)
       ∧ (handleUserInput cfg kb freshId freshAppt backend sid now store0
            cid phone userInput).executed = [(generateResponse (backend 0)).tool_calls]
       ∧ (∀ m : Nat,
            (handleUserInput cfg kb freshId freshAppt backend sid now store0
               cid phone userInput).resp.turnCount = some m →
            m < cfg.maxTurns →
            (handleUserInput cfg kb freshId freshAppt backend sid now store0
               cid phone userInput).resp.response
              = (generateResponse (backend 1)).response
            ∧ (handleUserInput cfg kb freshId freshAppt backend sid now store0
                 cid phone userInput).resp.action
              = (generateResponse (backend 1)).action)) := by
  by_cases hbr : (generateResponse (backend 0)).tool_calls = []
  · have hempty : (generateResponse (backend 0)).tool_calls.isEmpty = true :=
      List.isEmpty_iff.mpr hbr
    have htp : ∀ sess : Session,
        toolPhase kb freshId freshAppt backend sess (generateResponse (backend 0))
          = ((generateResponse (backend 0)).response,
             (generateResponse (backend 0)).action, [none], []) := by
      intro sess
      simp [toolPhase, hempty]
    refine ⟨?_, ?_, ?_, ?_⟩
    · simp only [handleUserInput, htp]
      decide
    · simp only [handleUserInput, htp]
      simp [hbr]
    · intro _
      simp [handleUserInput, htp]
    · intro hne
      exact absurd hbr hne
  · have hempty : (generateResponse (backend 0)).tool_calls.isEmpty = false :=
      List.isEmpty_eq_false.mpr hbr
    have hrs : ∀ sess : Session,
        (executeTools kb sess freshId freshAppt
           (generateResponse (backend 0)).tool_calls).isEmpty = false := by
      intro sess
      rw [List.isEmpty_eq_false]
      intro hnil
      have hlen := executeToolsAux_length kb sess freshId freshAppt
        (generateResponse (backend 0)).tool_calls 0
      rw [show executeToolsAux kb sess freshId freshAppt 0
            (generateResponse (backend 0)).tool_calls
          = executeTools kb sess freshId freshAppt
              (generateResponse (backend 0)).tool_calls from rfl, hnil] at hlen
      exact hbr (List.length_eq_zero.mp hlen.symm)
    have htp : ∀ sess : Session,
        toolPhase kb freshId freshAppt backend sess (generateResponse (backend 0))
          = ((generateResponse (backend 1)).response,
             (generateResponse (backend 1)).action,
             [none, some (executeTools kb sess freshId freshAppt
                (generateResponse (backend 0)).tool_calls)],
             [(generateResponse (backend 0)).tool_calls]) := by
      intro sess
      simp [toolPhase, hempty, hrs sess]
    refine ⟨?_, ?_, ?_, ?_⟩
    · simp only [handleUserInput, htp]
      exact Nat.le.refl
    · simp only [handleUserInput, htp]
      simp [hbr]
    · intro h
      exact absurd h hbr
    · intro _
      refine ⟨?_, ?_, ?_⟩
      · simp only [handleUserInput, htp]
        exact ⟨_, rfl, executeToolsAux_length kb _ freshId freshAppt _ 0⟩
      · simp only [handleUserInput, htp]
      · intro m hm hlt
        simp only [handleUserInput, htp, Option.some.injEq] at hm ⊢
        subst hm
        rw [if_neg (Nat.not_le.mpr hlt), if_neg (Nat.not_le.mpr hlt)]
        exact ⟨rfl, rfl⟩

/-- A backend that requests a tool on every invocation. -/
def backendTools : Nat → InvokeOutcome :=
  fun _ => InvokeOutcome.success "using tool"
    [⟨some "t1", "lookup_account", JVal.obj []⟩] (some "tool_use")

theorem single_followup_bound_witness :
    (handleUserInput cfgShared kbOk (fun _ => "u") (fun _ => "u") backendTools
       "sid" 5 [] "cw2" "p" "hi").trace.length = 2 := by
  have h := single_followup_bound cfgShared kbOk (fun _ => "u") (fun _ => "u")
    backendTools "sid" 5 [] "cw2" "p" "hi"
  have hne : (generateResponse (backendTools 0)).tool_calls
      = [⟨some "t1", "lookup_account", JVal.obj []⟩] := rfl
  exact h.2.1.mpr (by rw [hne]; exact List.cons_ne_nil _ _)

/-- The action returned by `handle_user_input` always comes from the
closed three-valued vocabulary. -/
theorem handleUserInput_action_mem (cfg : Config) (kb : String → Except String JVal)
    (freshId freshAppt : Nat → String) (backend : Nat → InvokeOutcome)
    (sid : String) (now : Nat) (store0 : Store) (cid phone userInput : String) :
    (handleUserInput cfg kb freshId freshAppt backend sid now store0
       cid phone userInput).resp.action = "continue"
  ∨ (handleUserInput cfg kb freshId freshAppt backend sid now store0
       cid phone userInput).resp.action = "transfer"
  ∨ (handleUserInput cfg kb freshId freshAppt backend sid now store0
       cid phone userInput).resp.action = "end" := by
  simp only [handleUserInput]
  split
  · exact Or.inr (Or.inl rfl)
  · rcases toolPhase_action kb freshId freshAppt backend _ (generateResponse (backend 0))
      with h | h
    · rw [h]
      exact generateResponse_action_mem (backend 0)
    · rw [h]
      exact generateResponse_action_mem (backend 1)

/-- C10: for every inbound event (malformed ones included) and every
exception raised by a collaborator during handling, `lambda_handler`
returns a dictionary whose action is one of continue / transfer / end
(with a response string), and a raised exception is converted by
`handle_error` rather than propagated. -/
theorem lambda_handler_total_safe (cfg : Config) (kb : String → Except String JVal)
    (freshId freshAppt : Nat → String) (backend : Nat → InvokeOutcome)
    (sid freshContact : String) (now : Nat) (store0 : Store)
    (ev : ConnectEvent) (raised : Option PyExc) :
    ((lambdaHandler cfg kb freshId freshAppt backend sid freshContact now store0
        ev raised).1.action = "continue"
     ∨ (lambdaHandler cfg kb freshId freshAppt backend sid freshContact now store0
          ev raised).1.action = "transfer"
     ∨ (lambdaHandler cfg kb freshId freshAppt backend sid freshContact now store0
          ev raised).1.action = "end")
  ∧ (∀ e : PyExc, raised = some e →
       (lambdaHandler cfg kb freshId freshAppt backend sid freshContact now store0
          ev raised).1 = handleError e) := by
  cases raised with
  | some e =>
    constructor
    · rcases handleError_action_mem e with h | h
      · exact Or.inl h
      · exact Or.inr (Or.inl h)
    · intro e2 he2
      injection he2 with he2
      subst he2
      rfl
  | none =>
    constructor
    · simp only [lambdaHandler]
      by_cases h1 : ev.eventType.getD "user_input" = "init"
      · rw [if_pos h1]
        exact Or.inl rfl
      · rw [if_neg h1]
        by_cases h2 : ev.eventType.getD "user_input" = "user_input"
        · rw [if_pos h2]
          exact handleUserInput_action_mem cfg kb freshId freshAppt backend sid now
            store0 (ev.contactId.getD freshContact) (ev.customerAddress.getD "unknown")
            (ev.userInput.getD "")
        · rw [if_neg h2]
          by_cases h3 : ev.eventType.getD "user_input" = "end"
          · rw [if_pos h3]
            exact Or.inr (Or.inr rfl)
          · rw [if_neg h3]
            exact handleUserInput_action_mem cfg kb freshId freshAppt backend sid now
              store0 (ev.contactId.getD freshContact) (ev.customerAddress.getD "unknown")
              (ev.userInput.getD "")
    · intro e he
      cases he

/-- A well-formed user-input event fixture. -/
def evW : ConnectEvent := ⟨some "cw3", some "p", some "hi", some "user_input"⟩

theorem lambda_handler_total_safe_witness :
    (lambdaHandler cfgShared kbOk (fun _ => "u") (fun _ => "u") backendPlain
       "sid" "fc" 5 [] evW (some (PyExc.otherError "boom"))).1
      = handleError (PyExc.otherError "boom") :=
  (lambda_handler_total_safe cfgShared kbOk (fun _ => "u") (fun _ => "u") backendPlain
     "sid" "fc" 5 [] evW (some (PyExc.otherError "boom"))).2
    (PyExc.otherError "boom") rfl
